import Mathlib

-- Verification of the transactional mutation layer in src/lib/src/transaction.rs.
-- The Transaction type and all of its methods are embedded directly from that file.
-- Collaborator types that live outside the provided sources (View, Evolution,
-- the commit store, the commit builder) are modelled from the specification; each
-- such definition carries a doc comment starting with "Modelled from the spec:".

set_option autoImplicit false

namespace JJ

abbrev CommitId := Nat
abbrev TreeId := Nat
abbrev FileId := Nat
abbrev RepoPath := Nat
abbrev ConflictId := Nat
abbrev Timestamp := Nat

/-- Modelled from the spec: a tree object in the content-addressable store, reduced
to the data `check_out` consults — its id and the list of paths that currently hold
unresolved conflict markers (store/tree encoding is out of scope per spec section 1). -/
structure Tree where
  id : TreeId
  conflicts : List (RepoPath × ConflictId)
deriving DecidableEq

/-- Modelled from the spec: a tree entry value; `check_out` only ever writes
`TreeValue::Normal { id, executable: false }` entries when materializing conflicts. -/
inductive TreeValue where
  | normal (id : FileId) (executable : Bool)
deriving DecidableEq

/-- Modelled from the spec: an immutable commit value (spec section 3) — id, parent ids,
predecessor ids (rewrite provenance), tree id, open flag, pruned flag. -/
structure Commit where
  id : CommitId
  parents : List CommitId
  predecessors : List CommitId
  tree_id : TreeId
  is_open : Bool
  is_pruned : Bool
deriving DecidableEq

/-- Modelled from the spec: the store-level commit record (`store::Commit`) passed to
`write_commit` before an id is assigned by the store. -/
structure CommitData where
  parents : List CommitId
  predecessors : List CommitId
  tree_id : TreeId
  is_open : Bool
  is_pruned : Bool
deriving DecidableEq

/-- Modelled from the spec: the content-addressable store handle (`StoreWrapper`).
Fresh object ids are modelled with counters; ids of objects present in a
well-formed store are strictly below the corresponding counter. -/
structure StoreWrapper where
  commits : List Commit
  trees : List Tree
  next_commit_id : CommitId
  next_tree_id : TreeId
  next_file_id : FileId
deriving DecidableEq

/-- Modelled from the spec: `get_commit(id) -> Result<Commit, NotFound>` (spec section 6). -/
def StoreWrapper.get_commit (st : StoreWrapper) (id : CommitId) : Option Commit :=
  st.commits.find? (fun c => c.id == id)

/-- Modelled from the spec: tree lookup in the store (`commit.tree()` resolves the
commit's tree id against the store). -/
def StoreWrapper.get_tree (st : StoreWrapper) (id : TreeId) : Option Tree :=
  st.trees.find? (fun t => t.id == id)

/-- Modelled from the spec: `write_commit(data) -> Commit` — persists a new commit
object under a fresh id. -/
def StoreWrapper.write_commit (st : StoreWrapper) (data : CommitData) : StoreWrapper × Commit :=
  let c : Commit :=
    { id := st.next_commit_id
      parents := data.parents
      predecessors := data.predecessors
      tree_id := data.tree_id
      is_open := data.is_open
      is_pruned := data.is_pruned }
  ({ st with commits := c :: st.commits, next_commit_id := st.next_commit_id + 1 }, c)

/-- Modelled from the spec: `write_file(path, bytes) -> FileId` — the written content
is irrelevant to the claims, only the fresh file id matters. -/
def StoreWrapper.write_file (st : StoreWrapper) : StoreWrapper × FileId :=
  ({ st with next_file_id := st.next_file_id + 1 }, st.next_file_id)

/-- Modelled from the spec: a tree builder seeded from a base tree, holding the
`set(path, value)` overrides applied so far. -/
structure TreeBuilder where
  base : Tree
  overrides : List (RepoPath × TreeValue)
deriving DecidableEq

/-- Modelled from the spec: `store.tree_builder(base_tree_id)` — seeds a builder with
no overrides. -/
def StoreWrapper.tree_builder (_st : StoreWrapper) (base : Tree) : TreeBuilder :=
  { base := base, overrides := [] }

/-- Modelled from the spec: `tree_builder.set(path, value)`. -/
def TreeBuilder.set (tb : TreeBuilder) (path : RepoPath) (v : TreeValue) : TreeBuilder :=
  { tb with overrides := tb.overrides ++ [(path, v)] }

/-- Modelled from the spec: `tree_builder.write_tree() -> TreeId`. The store is
content-addressed, so a builder with no overrides yields the base tree id unchanged
(spec section 8, conflict materialization idempotence); replacing a conflict entry by a
normal file entry always changes the content, so any override yields a fresh tree,
and the written tree has all listed conflicts replaced by normal entries. -/
def StoreWrapper.write_tree (st : StoreWrapper) (tb : TreeBuilder) : StoreWrapper × TreeId :=
  if tb.overrides.isEmpty then (st, tb.base.id)
  else
    let t : Tree := { id := st.next_tree_id, conflicts := [] }
    ({ st with trees := t :: st.trees, next_tree_id := st.next_tree_id + 1 }, st.next_tree_id)

/-- Modelled from the spec: `Commit::is_empty()` (commit.rs is not under src/) —
a commit is empty when it has no content changes relative to its parent(s), i.e. its
tree id coincides with each parent's tree id. -/
def Commit.is_empty (c : Commit) (st : StoreWrapper) : Bool :=
  c.parents.all (fun p =>
    match st.get_commit p with
    | some pc => pc.tree_id == c.tree_id
    | none => false)

/-- Modelled from the spec: the view working data (`op_store::View`) — the set of head
commit ids plus the single checkout commit id (spec section 3). -/
structure ViewData where
  heads : List CommitId
  checkout : CommitId
deriving DecidableEq

/-- Modelled from the spec: `MutableView::add_head(commit)` — adds the commit's id to
the head set (spec section 4.1). -/
def ViewData.add_head (v : ViewData) (head : Commit) : ViewData :=
  if head.id ∈ v.heads then v else { v with heads := head.id :: v.heads }

/-- Modelled from the spec: `MutableView::remove_head(commit)` — removes the commit's
id from the head set (spec section 4.1). -/
def ViewData.remove_head (v : ViewData) (head : Commit) : ViewData :=
  { v with heads := v.heads.filter (fun h => h ≠ head.id) }

/-- Modelled from the spec: `MutableView::set_checkout(id)` — unconditionally
overwrites the checkout pointer, with no validation (spec section 4.1). -/
def ViewData.set_checkout (v : ViewData) (id : CommitId) : ViewData :=
  { v with checkout := id }

/-- Modelled from the spec: `MutableView::set_view(data)` — wholesale replacement of
the view's persisted representation (spec section 4.1). -/
def ViewData.set_view (_v : ViewData) (data : ViewData) : ViewData :=
  data

/-- Modelled from the spec: the persisted Operation produced by a committed
transaction — description, start timestamp and the resulting view snapshot
(spec sections 3 and 6). -/
structure Operation where
  view : ViewData
  description : String
  start_time : Timestamp
deriving DecidableEq

/-- Modelled from the spec: `MutableView::save(description, start_time) -> Operation`
— serializes the view together with the description and start time into a new
Operation (spec section 4.1, commit). -/
def ViewData.save (v : ViewData) (description : String) (start_time : Timestamp) : Operation :=
  { view := v, description := description, start_time := start_time }

/-- The obsolescence relation derived from a view snapshot: the evolution index is a
pure function of the view it observes (spec sections 3 and 9). The concrete commit-graph
algorithm is out of scope, so developments are parametric in this function. -/
abbrev EvolutionFn := ViewData → CommitId → Bool

/-- Modelled from the spec: `MutableEvolution` — a lazily maintained cache of
obsolescence answers. Its state is the view snapshot its cached answers were derived
from; `invalidate` clears it, and a query answers from the cached snapshot when one
is present, otherwise from the current view (spec sections 3 and 4.1). -/
structure MutableEvolution where
  cached_view : Option ViewData
deriving DecidableEq

/-- `MutableEvolution::invalidate()` — discards the entire cached result
(spec section 4.1: coarse-grained invalidation). -/
def MutableEvolution.invalidate (_ev : MutableEvolution) : MutableEvolution :=
  { cached_view := none }

/-- Modelled from the spec: `Evolution::is_obsolete(id)` answered by a
MutableEvolution — from the cached snapshot when present, else from the current view. -/
def MutableEvolution.is_obsolete (ev : MutableEvolution) (obs : EvolutionFn)
    (current_view : ViewData) (id : CommitId) : Bool :=
  obs (ev.cached_view.getD current_view) id

/-- `MutableRepo` (transaction.rs lines 38-42): the mutable facade owning the working
view and the mutable evolution index. The borrowed base `ReadonlyRepo` reference is
not part of the mutable state; the store it provides is passed explicitly to the
operations that use it. `evolution` mirrors the source's `Option<MutableEvolution>`
(`None` is set inside `commit()` to drop the index before the repo is moved out). -/
structure MutableRepo where
  view : ViewData
  evolution : Option MutableEvolution
deriving DecidableEq

/-- `Transaction` (transaction.rs lines 31-36). The source field
`repo: Option<Arc<MutableRepo>>` is modelled by the `repo` field together with
`repo_shared`, which records whether another strong handle to the `Arc` is
outstanding (strong count above one): `Arc::get_mut`/`Arc::try_unwrap` succeed
exactly when it is `false`. The `Option` around the repo becomes `None` only inside
`commit()`, after which the `Transaction` has been moved out of; the model reflects
this by having `commit` consume the transaction. -/
structure Transaction where
  repo_shared : Bool
  repo : MutableRepo
  description : String
  start_time : Timestamp
  closed : Bool
deriving DecidableEq

/-- `Transaction::new` (lines 44-72): derives a mutable view from the base view,
bundles it with a mutable evolution index derived from the base evolution, the
description, the construction timestamp, and `closed = false`. The base evolution
was computed for `base_view` (precondition: base view and evolution are consistent
snapshots of the same state), so the derived index starts with that snapshot cached. -/
def Transaction.new (base_view : ViewData) (description : String) (now : Timestamp) :
    Transaction :=
  { repo_shared := false
    repo := { view := base_view, evolution := some { cached_view := some base_view } }
    description := description
    start_time := now
    closed := false }

/-- `Arc::get_mut(self.repo.as_mut().unwrap())` — yields the repo exactly when no
other strong handle is outstanding; `.unwrap()` on its failure is a panic (`none`). -/
def Transaction.get_mut (tx : Transaction) : Option MutableRepo :=
  if tx.repo_shared then none else some tx.repo

/-- `Transaction::as_repo_mut` (lines 86-88): `Arc::get_mut(...).unwrap()`. -/
def Transaction.as_repo_mut (tx : Transaction) : Option MutableRepo :=
  tx.get_mut

/-- `self.as_repo().evolution().is_obsolete(id)`: a read-only query through the
`Repo` facade (lines 208-220); `self.evolution.as_ref().unwrap()` panics (`none`)
if the evolution has been dropped. -/
def Transaction.is_obsolete (tx : Transaction) (obs : EvolutionFn) (id : CommitId) :
    Option Bool :=
  tx.repo.evolution.map (fun ev => ev.is_obsolete obs tx.repo.view id)

/-- `Transaction::set_checkout` (lines 162-165): updates the view's checkout pointer
through `Arc::get_mut(...).unwrap()`. Note: the evolution index is NOT invalidated. -/
def Transaction.set_checkout (tx : Transaction) (id : CommitId) : Option Transaction :=
  match tx.get_mut with
  | none => none
  | some mut_repo =>
    some { tx with repo := { mut_repo with view := mut_repo.view.set_checkout id } }

/-- `Transaction::add_head` (lines 167-171): adds the head to the view and
invalidates the evolution index, both through `Arc::get_mut(...).unwrap()`;
`evolution.as_mut().unwrap()` likewise panics if the index has been dropped. -/
def Transaction.add_head (tx : Transaction) (head : Commit) : Option Transaction :=
  match tx.get_mut with
  | none => none
  | some mut_repo =>
    match mut_repo.evolution with
    | none => none
    | some ev =>
      some { tx with
              repo := { view := mut_repo.view.add_head head
                        evolution := some ev.invalidate } }

/-- `Transaction::remove_head` (lines 173-177): removes the head from the view and
invalidates the evolution index. -/
def Transaction.remove_head (tx : Transaction) (head : Commit) : Option Transaction :=
  match tx.get_mut with
  | none => none
  | some mut_repo =>
    match mut_repo.evolution with
    | none => none
    | some ev =>
      some { tx with
              repo := { view := mut_repo.view.remove_head head
                        evolution := some ev.invalidate } }

/-- `Transaction::set_view` (lines 179-183): replaces the view wholesale and
invalidates the evolution index. -/
def Transaction.set_view (tx : Transaction) (data : ViewData) : Option Transaction :=
  match tx.get_mut with
  | none => none
  | some mut_repo =>
    match mut_repo.evolution with
    | none => none
    | some ev =>
      some { tx with
              repo := { view := mut_repo.view.set_view data
                        evolution := some ev.invalidate } }

/-- `Transaction::write_commit` (lines 90-100): writes the commit record to the
store, then adds the resulting commit as a head (which may panic when the repo
handle is shared — note the store write happens first). -/
def Transaction.write_commit (st : StoreWrapper) (tx : Transaction) (data : CommitData) :
    Option (StoreWrapper × Transaction × Commit) :=
  let r := st.write_commit data
  match tx.add_head r.2 with
  | none => none
  | some tx1 => some (r.1, tx1, r.2)

/-- Modelled from the spec: `CommitBuilder::for_rewrite_from(settings, store, commit)`
— a builder for a successor of `commit`: same parents, tree and flags, with the
original commit recorded as predecessor (settings only affect author metadata, which
is out of scope). -/
def CommitBuilder.for_rewrite_from (c : Commit) : CommitData :=
  { parents := c.parents
    predecessors := [c.id]
    tree_id := c.tree_id
    is_open := c.is_open
    is_pruned := c.is_pruned }

/-- Modelled from the spec: `CommitBuilder::for_open_commit(settings, store,
parent_id, tree_id)` — a builder for a brand-new open commit with the single given
parent and the given tree. -/
def CommitBuilder.for_open_commit (parent_id : CommitId) (tree_id : TreeId) : CommitData :=
  { parents := [parent_id]
    predecessors := []
    tree_id := tree_id
    is_open := true
    is_pruned := false }

/-- Modelled from the spec: `CommitBuilder::set_pruned(pruned)`. -/
def CommitData.set_pruned (d : CommitData) (pruned : Bool) : CommitData :=
  { d with is_pruned := pruned }

/-- Modelled from the spec: `CommitBuilder::set_tree(tree_id)`. -/
def CommitData.set_tree (d : CommitData) (tree_id : TreeId) : CommitData :=
  { d with tree_id := tree_id }

/-- The conflict-materialization loop of `check_out` (lines 119-133): for each
conflicted path, read the conflict, materialize its content, write it as a file into
the store, and override the tree entry at that path with a normal file entry.
The materialized bytes themselves are out of scope; each iteration performs one
store file write and one builder override. -/
def materialize_loop (st : StoreWrapper) (tb : TreeBuilder) :
    List (RepoPath × ConflictId) → StoreWrapper × TreeBuilder
  | [] => (st, tb)
  | (path, _conflict_id) :: rest =>
    let r := st.write_file
    materialize_loop r.1 (tb.set path (TreeValue.normal r.2 false)) rest

/-- The conflict-materialization result of `check_out` for a target tree: the store
after the file writes and the tree write, together with the candidate tree id
(lines 116-134 seen as a whole). -/
def StoreWrapper.materialize_result (st : StoreWrapper) (tree : Tree) :
    StoreWrapper × TreeId :=
  (materialize_loop st (st.tree_builder tree) tree.conflicts).1.write_tree
    (materialize_loop st (st.tree_builder tree) tree.conflicts).2

/-- The pruning condition of `check_out` (lines 106-108):
`current_checkout.is_empty() && !(current_checkout.is_pruned() ||
evolution().is_obsolete(&current_checkout_id))`, with Rust's short-circuit
evaluation — the evolution handle is only unwrapped (possibly panicking, `none`)
when the first two tests do not already decide the condition. -/
def Transaction.should_prune (tx : Transaction) (obs : EvolutionFn) (st : StoreWrapper)
    (current_checkout : Commit) : Option Bool :=
  if current_checkout.is_empty st then
    if current_checkout.is_pruned then some false
    else
      match tx.is_obsolete obs current_checkout.id with
      | none => none
      | some b => some (!b)
  else some false

/-- The pruning step of `check_out` (lines 106-115): when the pruning condition
holds, a rewrite successor of the current checkout with `pruned = true` is written
into the transaction (evaluating the condition or writing the commit may panic,
`none`). -/
def Transaction.prune_current (tx : Transaction) (obs : EvolutionFn) (st : StoreWrapper)
    (current_checkout : Commit) : Option (StoreWrapper × Transaction) :=
  match tx.should_prune obs st current_checkout with
  | none => none
  | some prune =>
    if prune then
      match Transaction.write_commit st tx
          ((CommitBuilder.for_rewrite_from current_checkout).set_pruned true) with
      | none => none
      | some r => some (r.1, r.2.1)
    else some (st, tx)

/-- The commit-selection step of `check_out` (lines 135-155): a brand-new open
commit on top of a closed target; a rewritten successor of an open target whose
tree was changed by conflict materialization; the target itself otherwise. -/
def Transaction.select_open_commit (st : StoreWrapper) (tx : Transaction) (commit : Commit)
    (tree_id : TreeId) : Option (StoreWrapper × Transaction × Commit) :=
  if !commit.is_open then
    Transaction.write_commit st tx (CommitBuilder.for_open_commit commit.id tree_id)
  else if tree_id ≠ commit.tree_id then
    Transaction.write_commit st tx ((CommitBuilder.for_rewrite_from commit).set_tree tree_id)
  else
    some (st, tx, commit)

/-- The final step of `check_out` (lines 156-159): the selected commit's id is
written into the view's checkout pointer through `Arc::get_mut(...).unwrap()` —
directly on the view, without evolution invalidation. -/
def Transaction.finish_check_out (tx : Transaction) (open_commit : Commit) :
    Option Transaction :=
  match tx.get_mut with
  | none => none
  | some mut_repo =>
    some { tx with
            repo := { mut_repo with view := mut_repo.view.set_checkout open_commit.id } }

/-- `Transaction::check_out` (lines 102-160): reads the current checkout commit
(a missing commit is a fatal `unwrap`), asserts it is open, prunes it when it is an
empty non-pruned non-obsolete commit, materializes the target commit's conflicts
into a candidate tree, selects the resulting open commit, and finally writes its id
into the view's checkout pointer. -/
def Transaction.check_out (tx : Transaction) (obs : EvolutionFn) (st : StoreWrapper)
    (commit : Commit) : Option (StoreWrapper × Transaction × Commit) :=
  match st.get_commit tx.repo.view.checkout with
  | none => none
  | some current_checkout =>
    if !current_checkout.is_open then none
    else
      match tx.prune_current obs st current_checkout with
      | none => none
      | some (st1, tx1) =>
        match st1.get_tree commit.tree_id with
        | none => none
        | some tree =>
          let r2 := materialize_loop st1 (st1.tree_builder tree) tree.conflicts
          let r3 := r2.1.write_tree r2.2
          match Transaction.select_open_commit r3.1 tx1 commit r3.2 with
          | none => none
          | some (st4, tx2, open_commit) =>
            match tx2.finish_check_out open_commit with
            | none => none
            | some tx3 => some (st4, tx3, open_commit)

/-- `Transaction::commit` (lines 185-193): `Arc::get_mut(...).unwrap()` and
`Arc::try_unwrap(...).ok().unwrap()` both fail fatally (`none`) exactly when another
strong handle to the repo is outstanding. On success the evolution index is dropped
(`mut_repo.evolution = None`) before the repo is moved out, the view is extracted
and serialized with the description and start time, and the transaction is marked
closed. The returned `Transaction` is the consumed session as its destructor will
observe it (`closed = true`, repo handed off). -/
def Transaction.commit (tx : Transaction) : Option (Transaction × Operation) :=
  match tx.get_mut with
  | none => none
  | some mut_repo =>
    let internal : MutableRepo := { mut_repo with evolution := none }
    let view := internal.view
    let operation := view.save tx.description tx.start_time
    some ({ tx with repo := internal, closed := true }, operation)

/-- `Transaction::discard` (lines 195-197): marks the transaction closed without
persisting anything. -/
def Transaction.discard (tx : Transaction) : Transaction :=
  { tx with closed := true }

/-- `impl Drop for Transaction` (lines 200-206): when the thread is not already
panicking, dropping asserts `self.closed`. Returns `true` when the drop is allowed
(no assertion failure). -/
def Transaction.drop_allowed (tx : Transaction) (panicking : Bool) : Bool :=
  panicking || tx.closed

/-- The non-terminal mutation entry points of `Transaction`, for quantifying over
arbitrary sequences of mutations. -/
inductive TxOp where
  | write_commit (data : CommitData)
  | check_out (target : Commit)
  | set_checkout (id : CommitId)
  | add_head (head : Commit)
  | remove_head (head : Commit)
  | set_view (data : ViewData)
deriving DecidableEq

/-- Applying one mutation entry point to a store and transaction. -/
def Transaction.apply_op (tx : Transaction) (obs : EvolutionFn) (st : StoreWrapper) :
    TxOp → Option (StoreWrapper × Transaction)
  | .write_commit data => (Transaction.write_commit st tx data).map (fun r => (r.1, r.2.1))
  | .check_out target => (tx.check_out obs st target).map (fun r => (r.1, r.2.1))
  | .set_checkout id => (tx.set_checkout id).map (fun tx1 => (st, tx1))
  | .add_head head => (tx.add_head head).map (fun tx1 => (st, tx1))
  | .remove_head head => (tx.remove_head head).map (fun tx1 => (st, tx1))
  | .set_view data => (tx.set_view data).map (fun tx1 => (st, tx1))

-- Concrete fixtures used by witness theorems.

/-- A base view for witnesses: a single head, commit 0 checked out. -/
def fixView : ViewData := { heads := [0], checkout := 0 }

/-- A fresh transaction over `fixView`. -/
def fixTx : Transaction := Transaction.new fixView "test" 7

/-- An obsolescence relation that depends on the view's checkout pointer. -/
def fixObs : EvolutionFn := fun v id => v.checkout == id

/-- An obsolescence relation that marks nothing obsolete. -/
def fixObsNever : EvolutionFn := fun _ _ => false

/-- The open, empty, unpruned commit 0 with the empty tree 0. -/
def fixC0 : Commit :=
  { id := 0, parents := [], predecessors := [], tree_id := 0
    is_open := true, is_pruned := false }

/-- The conflict-free tree 0. -/
def fixT0 : Tree := { id := 0, conflicts := [] }

/-- A store holding exactly `fixC0` and `fixT0`. -/
def fixStore : StoreWrapper :=
  { commits := [fixC0], trees := [fixT0]
    next_commit_id := 1, next_tree_id := 1, next_file_id := 0 }

/-- A default transaction for total projections out of `Option`. -/
def fixTxDefault : Transaction := Transaction.new { heads := [], checkout := 0 } "" 0

/-- `fixTx` after `set_checkout 5`. -/
def fixTxAfterSetCheckout : Transaction := (fixTx.set_checkout 5).getD fixTxDefault

/-- `fixTx` with an outstanding shared handle to its repo. -/
def fixTxShared : Transaction := { fixTx with repo_shared := true }

/-- `fixTx` after `add_head fixC0`. -/
def fixTxAfterAddHead : Transaction := (fixTx.add_head fixC0).getD fixTxDefault

/-- A closed variant of commit 0, used as a corrupt current checkout. -/
def fixC0Closed : Commit := { fixC0 with is_open := false }

/-- A store whose commit 0 — the fixture view's checkout — is closed. -/
def fixStoreClosedCur : StoreWrapper := { fixStore with commits := [fixC0Closed] }

/-- A closed commit 1 on top of commit 0, sharing its tree. -/
def fixC1Closed : Commit :=
  { id := 1, parents := [0], predecessors := [], tree_id := 0
    is_open := false, is_pruned := false }

/-- `fixStore` extended with the closed commit 1. -/
def fixStoreWithClosed : StoreWrapper :=
  { fixStore with commits := [fixC1Closed, fixC0], next_commit_id := 2 }

/-- Well-formedness of the store's fresh-id counter: every stored commit has an id
strictly below the counter, so the next written commit is brand-new. -/
def StoreWrapper.wf (st : StoreWrapper) : Prop :=
  ∀ c ∈ st.commits, c.id < st.next_commit_id

instance (st : StoreWrapper) : Decidable st.wf :=
  inferInstanceAs (Decidable (∀ c ∈ st.commits, c.id < st.next_commit_id))

-- Helper lemmas shared between the claim theorems.

theorem get_mut_of_not_shared {tx : Transaction} (h : tx.repo_shared = false) :
    tx.get_mut = some tx.repo := by
  simp [Transaction.get_mut, h]

theorem get_mut_of_shared {tx : Transaction} (h : tx.repo_shared = true) :
    tx.get_mut = none := by
  simp [Transaction.get_mut, h]

/-- The scalar session fields preserved by `add_head`. -/
theorem add_head_meta {tx : Transaction} {head : Commit} {tx1 : Transaction}
    (h : tx.add_head head = some tx1) :
    tx1.closed = tx.closed ∧ tx1.description = tx.description ∧
    tx1.start_time = tx.start_time ∧ tx1.repo_shared = tx.repo_shared := by
  unfold Transaction.add_head at h
  split at h
  · exact absurd h (by simp)
  · split at h
    · exact absurd h (by simp)
    · cases h
      exact ⟨rfl, rfl, rfl, rfl⟩

/-- The scalar session fields preserved by `remove_head`. -/
theorem remove_head_meta {tx : Transaction} {head : Commit} {tx1 : Transaction}
    (h : tx.remove_head head = some tx1) :
    tx1.closed = tx.closed ∧ tx1.description = tx.description ∧
    tx1.start_time = tx.start_time ∧ tx1.repo_shared = tx.repo_shared := by
  unfold Transaction.remove_head at h
  split at h
  · exact absurd h (by simp)
  · split at h
    · exact absurd h (by simp)
    · cases h
      exact ⟨rfl, rfl, rfl, rfl⟩

/-- The scalar session fields preserved by `set_view`. -/
theorem set_view_meta {tx : Transaction} {data : ViewData} {tx1 : Transaction}
    (h : tx.set_view data = some tx1) :
    tx1.closed = tx.closed ∧ tx1.description = tx.description ∧
    tx1.start_time = tx.start_time ∧ tx1.repo_shared = tx.repo_shared := by
  unfold Transaction.set_view at h
  split at h
  · exact absurd h (by simp)
  · split at h
    · exact absurd h (by simp)
    · cases h
      exact ⟨rfl, rfl, rfl, rfl⟩

/-- The scalar session fields preserved by `set_checkout`. -/
theorem set_checkout_meta {tx : Transaction} {id : CommitId} {tx1 : Transaction}
    (h : tx.set_checkout id = some tx1) :
    tx1.closed = tx.closed ∧ tx1.description = tx.description ∧
    tx1.start_time = tx.start_time ∧ tx1.repo_shared = tx.repo_shared := by
  unfold Transaction.set_checkout at h
  split at h
  · exact absurd h (by simp)
  · cases h
    exact ⟨rfl, rfl, rfl, rfl⟩

/-- The scalar session fields preserved by `write_commit`. -/
theorem write_commit_meta {st : StoreWrapper} {tx : Transaction} {data : CommitData}
    {st1 : StoreWrapper} {tx1 : Transaction} {c : Commit}
    (h : Transaction.write_commit st tx data = some (st1, tx1, c)) :
    tx1.closed = tx.closed ∧ tx1.description = tx.description ∧
    tx1.start_time = tx.start_time ∧ tx1.repo_shared = tx.repo_shared := by
  simp only [Transaction.write_commit] at h
  split at h
  · exact absurd h (by simp)
  · rename_i tx2 heq
    cases h
    exact add_head_meta heq

/-- The scalar session fields preserved by the pruning step. -/
theorem prune_current_meta {tx : Transaction} {obs : EvolutionFn} {st : StoreWrapper}
    {c : Commit} {st1 : StoreWrapper} {tx1 : Transaction}
    (h : tx.prune_current obs st c = some (st1, tx1)) :
    tx1.closed = tx.closed ∧ tx1.description = tx.description ∧
    tx1.start_time = tx.start_time ∧ tx1.repo_shared = tx.repo_shared := by
  unfold Transaction.prune_current at h
  split at h
  · exact absurd h (by simp)
  · split at h
    · split at h
      · exact absurd h (by simp)
      · rename_i r heq
        obtain ⟨sta, txa, ca⟩ := r
        cases h
        exact write_commit_meta heq
    · cases h
      exact ⟨rfl, rfl, rfl, rfl⟩

/-- The scalar session fields preserved by the commit-selection step. -/
theorem select_open_commit_meta {st : StoreWrapper} {tx : Transaction} {c : Commit}
    {tree_id : TreeId} {st1 : StoreWrapper} {tx1 : Transaction} {oc : Commit}
    (h : Transaction.select_open_commit st tx c tree_id = some (st1, tx1, oc)) :
    tx1.closed = tx.closed ∧ tx1.description = tx.description ∧
    tx1.start_time = tx.start_time ∧ tx1.repo_shared = tx.repo_shared := by
  unfold Transaction.select_open_commit at h
  split at h
  · exact write_commit_meta h
  · split at h
    · exact write_commit_meta h
    · cases h
      exact ⟨rfl, rfl, rfl, rfl⟩

/-- The scalar session fields preserved by the final checkout update. -/
theorem finish_check_out_meta {tx : Transaction} {oc : Commit} {tx1 : Transaction}
    (h : tx.finish_check_out oc = some tx1) :
    tx1.closed = tx.closed ∧ tx1.description = tx.description ∧
    tx1.start_time = tx.start_time ∧ tx1.repo_shared = tx.repo_shared := by
  unfold Transaction.finish_check_out at h
  split at h
  · exact absurd h (by simp)
  · cases h
    exact ⟨rfl, rfl, rfl, rfl⟩

/-- The scalar session fields preserved by `check_out`. -/
theorem check_out_meta {tx : Transaction} {obs : EvolutionFn} {st : StoreWrapper}
    {c : Commit} {st1 : StoreWrapper} {tx1 : Transaction} {oc : Commit}
    (h : tx.check_out obs st c = some (st1, tx1, oc)) :
    tx1.closed = tx.closed ∧ tx1.description = tx.description ∧
    tx1.start_time = tx.start_time ∧ tx1.repo_shared = tx.repo_shared := by
  simp only [Transaction.check_out] at h
  split at h
  · exact absurd h (by simp)
  · split at h
    · exact absurd h (by simp)
    · split at h
      · exact absurd h (by simp)
      · rename_i sta txa heqp
        split at h
        · exact absurd h (by simp)
        · split at h
          · exact absurd h (by simp)
          · rename_i stb txb cb heqs
            split at h
            · exact absurd h (by simp)
            · rename_i txc heqf
              cases h
              have h1 := prune_current_meta heqp
              have h2 := select_open_commit_meta heqs
              have h3 := finish_check_out_meta heqf
              exact ⟨by rw [h3.1, h2.1, h1.1], by rw [h3.2.1, h2.2.1, h1.2.1],
                     by rw [h3.2.2.1, h2.2.2.1, h1.2.2.1],
                     by rw [h3.2.2.2, h2.2.2.2, h1.2.2.2]⟩

/-- The scalar session fields (closed flag, description, start time, sharing flag)
are preserved by every mutation entry point. -/
theorem apply_op_meta {tx : Transaction} {obs : EvolutionFn} {st : StoreWrapper}
    {op : TxOp} {st1 : StoreWrapper} {tx1 : Transaction}
    (h : tx.apply_op obs st op = some (st1, tx1)) :
    tx1.closed = tx.closed ∧ tx1.description = tx.description ∧
    tx1.start_time = tx.start_time ∧ tx1.repo_shared = tx.repo_shared := by
  cases op with
  | write_commit data =>
    simp only [Transaction.apply_op, Option.map_eq_some'] at h
    obtain ⟨⟨sta, txa, ca⟩, heq, h2⟩ := h
    cases h2
    exact write_commit_meta heq
  | check_out target =>
    simp only [Transaction.apply_op, Option.map_eq_some'] at h
    obtain ⟨⟨sta, txa, ca⟩, heq, h2⟩ := h
    cases h2
    exact check_out_meta heq
  | set_checkout id =>
    simp only [Transaction.apply_op, Option.map_eq_some'] at h
    obtain ⟨txa, heq, h2⟩ := h
    cases h2
    exact set_checkout_meta heq
  | add_head head =>
    simp only [Transaction.apply_op, Option.map_eq_some'] at h
    obtain ⟨txa, heq, h2⟩ := h
    cases h2
    exact add_head_meta heq
  | remove_head head =>
    simp only [Transaction.apply_op, Option.map_eq_some'] at h
    obtain ⟨txa, heq, h2⟩ := h
    cases h2
    exact remove_head_meta heq
  | set_view data =>
    simp only [Transaction.apply_op, Option.map_eq_some'] at h
    obtain ⟨txa, heq, h2⟩ := h
    cases h2
    exact set_view_meta heq

/-- `commit()` on an exclusively owned repo handle: the success form. -/
theorem commit_of_not_shared {tx : Transaction} (h : tx.repo_shared = false) :
    Transaction.commit tx =
      some ({ tx with repo := { tx.repo with evolution := none }, closed := true },
            tx.repo.view.save tx.description tx.start_time) := by
  unfold Transaction.commit
  rw [get_mut_of_not_shared h]

/-- While the repo handle is shared, `add_head` panics. -/
theorem add_head_shared {tx : Transaction} (h : tx.repo_shared = true) (head : Commit) :
    tx.add_head head = none := by
  simp [Transaction.add_head, get_mut_of_shared h]

/-- While the repo handle is shared, `write_commit` panics (after the store write). -/
theorem write_commit_shared {tx : Transaction} (h : tx.repo_shared = true)
    (st : StoreWrapper) (data : CommitData) :
    Transaction.write_commit st tx data = none := by
  simp [Transaction.write_commit, add_head_shared h]

/-- While the repo handle is shared, the pruning step either panics or passes the
transaction through untouched (when the pruning condition is false). -/
theorem prune_current_shared {tx : Transaction} (h : tx.repo_shared = true)
    (obs : EvolutionFn) (st : StoreWrapper) (cc : Commit) :
    tx.prune_current obs st cc = none ∨ tx.prune_current obs st cc = some (st, tx) := by
  unfold Transaction.prune_current
  cases hsp : tx.should_prune obs st cc with
  | none => exact Or.inl rfl
  | some b =>
    cases b with
    | true => simp [write_commit_shared h]
    | false => simp

/-- While the repo handle is shared, commit selection either panics or passes the
transaction through untouched (when the target is reused as is). -/
theorem select_open_commit_shared {tx : Transaction} (h : tx.repo_shared = true)
    (st : StoreWrapper) (c : Commit) (tree_id : TreeId) :
    Transaction.select_open_commit st tx c tree_id = none ∨
    Transaction.select_open_commit st tx c tree_id = some (st, tx, c) := by
  unfold Transaction.select_open_commit
  by_cases h1 : c.is_open = true
  · by_cases h2 : tree_id = c.tree_id
    · simp [h1, h2]
    · simp [h1, h2, write_commit_shared h]
  · simp only [Bool.not_eq_true] at h1
    simp [h1, write_commit_shared h]

/-- While the repo handle is shared, the final checkout update panics. -/
theorem finish_check_out_shared {tx : Transaction} (h : tx.repo_shared = true)
    (oc : Commit) : tx.finish_check_out oc = none := by
  simp [Transaction.finish_check_out, get_mut_of_shared h]

/-- While the repo handle is shared, `check_out` panics on every input. -/
theorem check_out_shared {tx : Transaction} (h : tx.repo_shared = true)
    (obs : EvolutionFn) (st : StoreWrapper) (c : Commit) :
    tx.check_out obs st c = none := by
  unfold Transaction.check_out
  cases hg : st.get_commit tx.repo.view.checkout with
  | none => rfl
  | some cc =>
    by_cases ho : cc.is_open = true
    · rcases prune_current_shared h obs st cc with hp | hp
      · simp [ho, hp]
      · cases hgt : st.get_tree c.tree_id with
        | none => simp [ho, hp, hgt]
        | some tree =>
          rcases select_open_commit_shared h
              ((materialize_loop st (st.tree_builder tree) tree.conflicts).1.write_tree
                (materialize_loop st (st.tree_builder tree) tree.conflicts).2).1 c
              ((materialize_loop st (st.tree_builder tree) tree.conflicts).1.write_tree
                (materialize_loop st (st.tree_builder tree) tree.conflicts).2).2 with hs | hs
          · simp [ho, hp, hgt, hs]
          · simp [ho, hp, hgt, hs, finish_check_out_shared h]
    · simp only [Bool.not_eq_true] at ho
      simp [ho]

-- Claim theorems.

/-- C1: dropping a Transaction while `closed = false` fails the drop-time assertion
unless the thread is already panicking (in which case the drop is silently allowed),
and `closed` becomes true exactly at `commit()`/`discard()`: it is false at
construction, preserved unchanged by every mutation entry point, and set to true by
the two terminal operations. -/
theorem claim_C1 :
    (∀ (tx : Transaction) (panicking : Bool),
        tx.drop_allowed panicking = false ↔ panicking = false ∧ tx.closed = false)
    ∧ (∀ v d now, (Transaction.new v d now).closed = false)
    ∧ (∀ tx obs st op st1 tx1, Transaction.apply_op tx obs st op = some (st1, tx1) →
        tx1.closed = tx.closed)
    ∧ (∀ tx tx1 operation, Transaction.commit tx = some (tx1, operation) →
        tx1.closed = true)
    ∧ (∀ tx : Transaction, (Transaction.discard tx).closed = true) := by
  refine ⟨?_, ?_, ?_, ?_, ?_⟩
  · intro tx p
    cases p <;> cases h : tx.closed <;> simp [Transaction.drop_allowed, h]
  · intro v d now
    rfl
  · intro tx obs st op st1 tx1 h
    exact (apply_op_meta h).1
  · intro tx tx1 operation h
    unfold Transaction.commit at h
    split at h
    · exact absurd h (by simp)
    · cases h
      rfl
  · intro tx
    rfl

/-- Witness for C1 at concrete inputs: a fresh transaction is not closed, a
successful `set_checkout` preserves the closed flag, and dropping the fresh
transaction without a concurrent unwind is rejected. -/
theorem claim_C1_witness :
    fixTxAfterSetCheckout.closed = fixTx.closed ∧
    (fixTx.drop_allowed false = false ↔ false = false ∧ fixTx.closed = false) :=
  ⟨claim_C1.2.2.1 fixTx fixObs fixStore (TxOp.set_checkout 5) fixStore
      fixTxAfterSetCheckout rfl,
   claim_C1.1 fixTx false⟩

/-- C3: when `commit()` succeeds, the returned Operation's view snapshot has head
set and checkout id exactly equal to the transaction's mutable view at the moment of
the call, and carries the transaction's description and start time. -/
theorem claim_C3 (tx : Transaction) (h : tx.repo_shared = false) :
    ∃ tx1 operation, Transaction.commit tx = some (tx1, operation) ∧
      operation.view.heads = tx.repo.view.heads ∧
      operation.view.checkout = tx.repo.view.checkout ∧
      operation.description = tx.description ∧
      operation.start_time = tx.start_time :=
  ⟨_, _, commit_of_not_shared h, rfl, rfl, rfl, rfl⟩

/-- Witness for C3: committing the fixture transaction. -/
theorem claim_C3_witness :
    ∃ tx1 operation, Transaction.commit fixTx = some (tx1, operation) ∧
      operation.view.heads = fixTx.repo.view.heads ∧
      operation.view.checkout = fixTx.repo.view.checkout ∧
      operation.description = fixTx.description ∧
      operation.start_time = fixTx.start_time :=
  claim_C3 fixTx rfl

/-- C8: `commit()` on a transaction whose internal MutableRepo handle is still
shared fails fatally (both the `Arc::get_mut` and the `Arc::try_unwrap` unwraps),
never silently ignoring the outstanding handle; with an exclusive handle it succeeds,
and the mutable evolution is dropped from the repo (it is not part of the serialized
Operation, which is built from the view, description and start time alone). -/
theorem claim_C8 (tx : Transaction) :
    (tx.repo_shared = true → Transaction.commit tx = none)
    ∧ (tx.repo_shared = false →
        ∃ tx1 operation, Transaction.commit tx = some (tx1, operation) ∧
          tx1.repo.evolution = none ∧
          operation = tx.repo.view.save tx.description tx.start_time) := by
  constructor
  · intro h
    unfold Transaction.commit
    rw [get_mut_of_shared h]
  · intro h
    exact ⟨_, _, commit_of_not_shared h, rfl, rfl⟩

/-- Witness for C8: committing a shared fixture fails; committing the exclusive
fixture succeeds with the evolution dropped. -/
theorem claim_C8_witness :
    Transaction.commit fixTxShared = none ∧
    (∃ tx1 operation, Transaction.commit fixTx = some (tx1, operation) ∧
      tx1.repo.evolution = none ∧
      operation = fixTx.repo.view.save fixTx.description fixTx.start_time) :=
  ⟨(claim_C8 fixTxShared).1 rfl, (claim_C8 fixTx).2 rfl⟩

/-- C9: with an outstanding shared handle to the internal MutableRepo, every
mutation entry point — `as_repo_mut`, `check_out`, `set_checkout`, `add_head`,
`remove_head`, `set_view` — faults rather than mutating: none of them produces a
successor state. -/
theorem claim_C9 (tx : Transaction) (h : tx.repo_shared = true) :
    tx.as_repo_mut = none
    ∧ (∀ obs st c, tx.check_out obs st c = none)
    ∧ (∀ id, tx.set_checkout id = none)
    ∧ (∀ head, tx.add_head head = none)
    ∧ (∀ head, tx.remove_head head = none)
    ∧ (∀ data, tx.set_view data = none) := by
  have hgm := get_mut_of_shared h
  refine ⟨?_, ?_, ?_, ?_, ?_, ?_⟩
  · simpa [Transaction.as_repo_mut] using hgm
  · intro obs st c
    exact check_out_shared h obs st c
  · intro id
    simp [Transaction.set_checkout, hgm]
  · intro head
    exact add_head_shared h head
  · intro head
    simp [Transaction.remove_head, hgm]
  · intro data
    simp [Transaction.set_view, hgm]

/-- Witness for C9 at the shared fixture. -/
theorem claim_C9_witness :
    fixTxShared.as_repo_mut = none ∧
    fixTxShared.check_out fixObs fixStore fixC0 = none ∧
    fixTxShared.set_checkout 5 = none ∧
    fixTxShared.add_head fixC0 = none ∧
    fixTxShared.remove_head fixC0 = none ∧
    fixTxShared.set_view fixView = none :=
  ⟨(claim_C9 fixTxShared rfl).1,
   (claim_C9 fixTxShared rfl).2.1 fixObs fixStore fixC0,
   (claim_C9 fixTxShared rfl).2.2.1 5,
   (claim_C9 fixTxShared rfl).2.2.2.1 fixC0,
   (claim_C9 fixTxShared rfl).2.2.2.2.1 fixC0,
   (claim_C9 fixTxShared rfl).2.2.2.2.2 fixView⟩

/-- C10: the description and start time are fixed at construction — `new` stores
the given description and construction timestamp, every mutation entry point
preserves them, and the Operation produced by `commit()` carries exactly the
transaction's description and start time, regardless of the mutations performed. -/
theorem claim_C10 :
    (∀ v d now, (Transaction.new v d now).description = d ∧
        (Transaction.new v d now).start_time = now)
    ∧ (∀ tx obs st op st1 tx1, Transaction.apply_op tx obs st op = some (st1, tx1) →
        tx1.description = tx.description ∧ tx1.start_time = tx.start_time)
    ∧ (∀ tx tx1 operation, Transaction.commit tx = some (tx1, operation) →
        operation.description = tx.description ∧ operation.start_time = tx.start_time) := by
  refine ⟨?_, ?_, ?_⟩
  · intro v d now
    exact ⟨rfl, rfl⟩
  · intro tx obs st op st1 tx1 h
    exact ⟨(apply_op_meta h).2.1, (apply_op_meta h).2.2.1⟩
  · intro tx tx1 operation h
    unfold Transaction.commit at h
    split at h
    · exact absurd h (by simp)
    · cases h
      exact ⟨rfl, rfl⟩

/-- Witness for C10 at concrete inputs: construction fixes the fields, a successful
mutation preserves them, and the committed Operation carries them. -/
theorem claim_C10_witness :
    ((Transaction.new fixView "test" 7).description = "test" ∧
      (Transaction.new fixView "test" 7).start_time = 7) ∧
    (fixTxAfterSetCheckout.description = fixTx.description ∧
      fixTxAfterSetCheckout.start_time = fixTx.start_time) :=
  ⟨claim_C10.1 fixView "test" 7,
   claim_C10.2.1 fixTx fixObs fixStore (TxOp.set_checkout 5) fixStore
     fixTxAfterSetCheckout rfl⟩

/-- Counterexample to C2 as stated: `set_checkout` is a checkout change, yet on the
fixture transaction it leaves the cached evolution index intact (the cache still
holds the pre-mutation view snapshot), and a subsequent obsolescence query answers
from that stale snapshot (`some false`) while the relation applied to the new view
answers `true`. -/
theorem claim_C2_counterexample :
    fixTx.set_checkout 5 = some fixTxAfterSetCheckout ∧
    fixTxAfterSetCheckout.repo.evolution = some { cached_view := some fixView } ∧
    fixTxAfterSetCheckout.is_obsolete fixObs 5 = some false ∧
    fixObs fixTxAfterSetCheckout.repo.view 5 = true :=
  ⟨rfl, rfl, rfl, rfl⟩

/-- C2 (amended): every head-set change or bulk view replacement — `add_head`,
`remove_head`, `set_view` — invalidates the entire cached evolution index, so a
subsequent obsolescence query reflects the new view and never a stale cached
answer; `set_checkout`, however, leaves the cached evolution index untouched. -/
theorem claim_C2 (tx : Transaction) :
    (∀ head tx1, tx.add_head head = some tx1 →
        tx1.repo.evolution = some { cached_view := none } ∧
        ∀ obs id, tx1.is_obsolete obs id = some (obs tx1.repo.view id))
    ∧ (∀ head tx1, tx.remove_head head = some tx1 →
        tx1.repo.evolution = some { cached_view := none } ∧
        ∀ obs id, tx1.is_obsolete obs id = some (obs tx1.repo.view id))
    ∧ (∀ data tx1, tx.set_view data = some tx1 →
        tx1.repo.evolution = some { cached_view := none } ∧
        ∀ obs id, tx1.is_obsolete obs id = some (obs tx1.repo.view id))
    ∧ (∀ id tx1, tx.set_checkout id = some tx1 →
        tx1.repo.evolution = tx.repo.evolution) := by
  refine ⟨?_, ?_, ?_, ?_⟩
  · intro head tx1 h
    unfold Transaction.add_head at h
    split at h
    · exact absurd h (by simp)
    · split at h
      · exact absurd h (by simp)
      · cases h
        exact ⟨rfl, fun obs id => rfl⟩
  · intro head tx1 h
    unfold Transaction.remove_head at h
    split at h
    · exact absurd h (by simp)
    · split at h
      · exact absurd h (by simp)
      · cases h
        exact ⟨rfl, fun obs id => rfl⟩
  · intro data tx1 h
    unfold Transaction.set_view at h
    split at h
    · exact absurd h (by simp)
    · split at h
      · exact absurd h (by simp)
      · cases h
        exact ⟨rfl, fun obs id => rfl⟩
  · intro id tx1 h
    unfold Transaction.set_checkout at h
    split at h
    · exact absurd h (by simp)
    · rename_i mr hmr
      cases h
      unfold Transaction.get_mut at hmr
      split at hmr
      · exact absurd hmr (by simp)
      · cases hmr
        rfl

/-- Witness for the amended C2: after a concrete `add_head` the cache is cleared
and the query answers from the current view. -/
theorem claim_C2_witness :
    fixTxAfterAddHead.repo.evolution = some { cached_view := none } ∧
    fixTxAfterAddHead.is_obsolete fixObs 0 = some (fixObs fixTxAfterAddHead.repo.view 0) :=
  ⟨((claim_C2 fixTx).1 fixC0 fixTxAfterAddHead rfl).1,
   ((claim_C2 fixTx).1 fixC0 fixTxAfterAddHead rfl).2 fixObs 0⟩

/-- C4: when the commit looked up from the view's checkout id is closed,
`check_out` faults on every target — it never produces a successor state, so the
fault precedes any mutation of the view. -/
theorem claim_C4 (tx : Transaction) (obs : EvolutionFn) (st : StoreWrapper)
    (cc : Commit) (hcur : st.get_commit tx.repo.view.checkout = some cc)
    (hclosed : cc.is_open = false) :
    ∀ target, tx.check_out obs st target = none := by
  intro target
  unfold Transaction.check_out
  rw [hcur]
  simp [hclosed]

/-- Witness for C4: a store whose current checkout commit is closed. -/
theorem claim_C4_witness :
    fixTx.check_out fixObs fixStoreClosedCur fixC0 = none :=
  claim_C4 fixTx fixObs fixStoreClosedCur fixC0Closed rfl rfl fixC0

-- Helper lemmas for the check_out success paths.

theorem get_commit_id {st : StoreWrapper} {id : CommitId} {c : Commit}
    (h : st.get_commit id = some c) : c.id = id := by
  have := List.find?_some h
  simpa using this

theorem get_tree_id {st : StoreWrapper} {id : TreeId} {t : Tree}
    (h : st.get_tree id = some t) : t.id = id := by
  have := List.find?_some h
  simpa using this

theorem get_commit_mem {st : StoreWrapper} {id : CommitId} {c : Commit}
    (h : st.get_commit id = some c) : c ∈ st.commits :=
  List.mem_of_find?_eq_some h

theorem get_commit_none_of_le {st : StoreWrapper} {id : CommitId} (hwf : st.wf)
    (h : st.next_commit_id ≤ id) : st.get_commit id = none := by
  unfold StoreWrapper.get_commit
  rw [List.find?_eq_none]
  intro c hc
  have hlt := hwf c hc
  intro heq
  simp only [beq_iff_eq] at heq
  exact Nat.ne_of_lt (Nat.lt_of_lt_of_le hlt h) heq

theorem add_head_mem_self (v : ViewData) (c : Commit) : c.id ∈ (v.add_head c).heads := by
  unfold ViewData.add_head
  split
  · assumption
  · exact List.mem_cons_self _ _

theorem add_head_mem_mono {v : ViewData} {x : CommitId} (h : x ∈ v.heads) (c : Commit) :
    x ∈ (v.add_head c).heads := by
  unfold ViewData.add_head
  split
  · exact h
  · exact List.mem_cons_of_mem _ h

theorem add_head_eq {tx : Transaction} {ev : MutableEvolution} (head : Commit)
    (hns : tx.repo_shared = false) (hev : tx.repo.evolution = some ev) :
    tx.add_head head =
      some { tx with repo := { view := tx.repo.view.add_head head,
                               evolution := some ev.invalidate } } := by
  simp only [Transaction.add_head, get_mut_of_not_shared hns, hev]

theorem write_commit_eq {st : StoreWrapper} {tx : Transaction} {ev : MutableEvolution}
    (data : CommitData) (hns : tx.repo_shared = false)
    (hev : tx.repo.evolution = some ev) :
    Transaction.write_commit st tx data =
      some ((st.write_commit data).1,
            { tx with repo := { view := tx.repo.view.add_head (st.write_commit data).2,
                                evolution := some ev.invalidate } },
            (st.write_commit data).2) := by
  simp only [Transaction.write_commit, add_head_eq _ hns hev]

theorem should_prune_eq_true {tx : Transaction} {obs : EvolutionFn} {st : StoreWrapper}
    {cc : Commit} {ev : MutableEvolution}
    (hev : tx.repo.evolution = some ev)
    (hempty : cc.is_empty st = true) (hnp : cc.is_pruned = false)
    (hobs : ev.is_obsolete obs tx.repo.view cc.id = false) :
    tx.should_prune obs st cc = some true := by
  simp [Transaction.should_prune, hempty, hnp, Transaction.is_obsolete, hev, hobs]

theorem prune_current_of_false {tx : Transaction} {obs : EvolutionFn} {st : StoreWrapper}
    {cc : Commit} (h : tx.should_prune obs st cc = some false) :
    tx.prune_current obs st cc = some (st, tx) := by
  simp [Transaction.prune_current, h]

theorem prune_current_of_true {tx : Transaction} {obs : EvolutionFn} {st : StoreWrapper}
    {cc : Commit} {ev : MutableEvolution}
    (hns : tx.repo_shared = false) (hev : tx.repo.evolution = some ev)
    (h : tx.should_prune obs st cc = some true) :
    tx.prune_current obs st cc =
      some ((st.write_commit ((CommitBuilder.for_rewrite_from cc).set_pruned true)).1,
            { tx with repo := { view := tx.repo.view.add_head (st.write_commit ((CommitBuilder.for_rewrite_from cc).set_pruned true)).2, evolution := some ev.invalidate } }) := by
  simp [Transaction.prune_current, h, write_commit_eq _ hns hev]

theorem select_open_commit_same {st : StoreWrapper} {tx : Transaction} {c : Commit}
    {tid : TreeId} (hopen : c.is_open = true) (heq : tid = c.tree_id) :
    Transaction.select_open_commit st tx c tid = some (st, tx, c) := by
  simp [Transaction.select_open_commit, hopen, heq]

theorem select_open_commit_closed {st : StoreWrapper} {tx : Transaction} {c : Commit}
    {tid : TreeId} {ev : MutableEvolution}
    (hns : tx.repo_shared = false) (hev : tx.repo.evolution = some ev)
    (hclosed : c.is_open = false) :
    Transaction.select_open_commit st tx c tid =
      some ((st.write_commit (CommitBuilder.for_open_commit c.id tid)).1,
            { tx with repo := { view := tx.repo.view.add_head (st.write_commit (CommitBuilder.for_open_commit c.id tid)).2, evolution := some ev.invalidate } },
            (st.write_commit (CommitBuilder.for_open_commit c.id tid)).2) := by
  simp [Transaction.select_open_commit, hclosed, write_commit_eq _ hns hev]

theorem finish_check_out_eq {tx : Transaction} (oc : Commit)
    (hns : tx.repo_shared = false) :
    tx.finish_check_out oc =
      some { tx with repo := { tx.repo with view := tx.repo.view.set_checkout oc.id } } := by
  simp only [Transaction.finish_check_out, get_mut_of_not_shared hns]

theorem materialize_loop_store (st : StoreWrapper) (tb : TreeBuilder)
    (l : List (RepoPath × ConflictId)) :
    (materialize_loop st tb l).1.commits = st.commits ∧
    (materialize_loop st tb l).1.trees = st.trees ∧
    (materialize_loop st tb l).1.next_commit_id = st.next_commit_id ∧
    (materialize_loop st tb l).1.next_tree_id = st.next_tree_id := by
  induction l generalizing st tb with
  | nil => exact ⟨rfl, rfl, rfl, rfl⟩
  | cons x xs ih =>
    obtain ⟨p, cid⟩ := x
    simpa [materialize_loop, StoreWrapper.write_file] using ih (st.write_file).1 (tb.set p (TreeValue.normal (st.write_file).2 false))

theorem materialize_loop_overrides_ne (st : StoreWrapper) (tb : TreeBuilder)
    (l : List (RepoPath × ConflictId)) (h : tb.overrides ≠ []) :
    (materialize_loop st tb l).2.overrides ≠ [] := by
  induction l generalizing st tb with
  | nil => exact h
  | cons x xs ih =>
    obtain ⟨p, cid⟩ := x
    exact ih _ _ (by simp [TreeBuilder.set])

theorem write_tree_store (st : StoreWrapper) (tb : TreeBuilder) :
    (st.write_tree tb).1.commits = st.commits ∧
    (st.write_tree tb).1.next_commit_id = st.next_commit_id := by
  unfold StoreWrapper.write_tree
  split
  · exact ⟨rfl, rfl⟩
  · exact ⟨rfl, rfl⟩

theorem materialize_result_store (st : StoreWrapper) (tree : Tree) :
    (st.materialize_result tree).1.commits = st.commits ∧
    (st.materialize_result tree).1.next_commit_id = st.next_commit_id := by
  obtain ⟨h1, h2, h3, h4⟩ := materialize_loop_store st (st.tree_builder tree) tree.conflicts
  obtain ⟨h5, h6⟩ := write_tree_store (materialize_loop st (st.tree_builder tree) tree.conflicts).1
      (materialize_loop st (st.tree_builder tree) tree.conflicts).2
  exact ⟨h5.trans h1, h6.trans h3⟩

theorem materialize_result_of_nil {tree : Tree} (st : StoreWrapper)
    (hconf : tree.conflicts = []) : st.materialize_result tree = (st, tree.id) := by
  unfold StoreWrapper.materialize_result
  rw [hconf]
  simp [materialize_loop, StoreWrapper.write_tree, StoreWrapper.tree_builder]

theorem materialize_result_tid (st : StoreWrapper) (tree : Tree) :
    (st.materialize_result tree).2 =
      if tree.conflicts.isEmpty then tree.id else st.next_tree_id := by
  cases hc : tree.conflicts with
  | nil =>
    rw [materialize_result_of_nil st hc]
    simp [hc]
  | cons x xs =>
    obtain ⟨p, cid⟩ := x
    unfold StoreWrapper.materialize_result
    rw [hc]
    have hne : (materialize_loop st (st.tree_builder tree) ((p, cid) :: xs)).2.overrides ≠ [] := by
      show (materialize_loop (st.write_file).1
          ((st.tree_builder tree).set p (TreeValue.normal (st.write_file).2 false))
          xs).2.overrides ≠ []
      exact materialize_loop_overrides_ne _ _ xs (by simp [TreeBuilder.set])
    rw [StoreWrapper.write_tree, if_neg (by simpa [List.isEmpty_iff] using hne)]
    have h4 := (materialize_loop_store st (st.tree_builder tree) ((p, cid) :: xs)).2.2.2
    simp [h4]

theorem select_open_commit_diff {st : StoreWrapper} {tx : Transaction} {c : Commit}
    {tid : TreeId} {ev : MutableEvolution}
    (hns : tx.repo_shared = false) (hev : tx.repo.evolution = some ev)
    (hopen : c.is_open = true) (hne : tid ≠ c.tree_id) :
    Transaction.select_open_commit st tx c tid =
      some ((st.write_commit ((CommitBuilder.for_rewrite_from c).set_tree tid)).1,
            { tx with repo := { view := tx.repo.view.add_head (st.write_commit ((CommitBuilder.for_rewrite_from c).set_tree tid)).2, evolution := some ev.invalidate } },
            (st.write_commit ((CommitBuilder.for_rewrite_from c).set_tree tid)).2) := by
  simp [Transaction.select_open_commit, hopen, hne, write_commit_eq _ hns hev]

theorem get_commit_after_write (st : StoreWrapper) (d : CommitData) :
    (st.write_commit d).1.get_commit st.next_commit_id = some (st.write_commit d).2 := by
  simp [StoreWrapper.write_commit, StoreWrapper.get_commit]

theorem check_out_spine {tx : Transaction} {obs : EvolutionFn} {st : StoreWrapper}
    {target cc : Commit} {st1 : StoreWrapper} {tx1 : Transaction} {tree : Tree}
    (hcur : st.get_commit tx.repo.view.checkout = some cc)
    (hopen : cc.is_open = true)
    (hprune : tx.prune_current obs st cc = some (st1, tx1))
    (htree : st1.get_tree target.tree_id = some tree) :
    tx.check_out obs st target =
      match Transaction.select_open_commit (st1.materialize_result tree).1 tx1 target
          (st1.materialize_result tree).2 with
      | none => none
      | some (st4, tx2, oc) =>
        match tx2.finish_check_out oc with
        | none => none
        | some tx3 => some (st4, tx3, oc) := by
  simp only [Transaction.check_out, StoreWrapper.materialize_result, hcur, hopen, hprune,
    htree, Bool.not_true, Bool.false_eq_true, if_false]

theorem check_out_reuse {tx : Transaction} {obs : EvolutionFn} {st : StoreWrapper}
    {target cc : Commit} {st1 : StoreWrapper} {tx1 : Transaction} {tree : Tree}
    (hcur : st.get_commit tx.repo.view.checkout = some cc)
    (hopen : cc.is_open = true)
    (hprune : tx.prune_current obs st cc = some (st1, tx1))
    (htree : st1.get_tree target.tree_id = some tree)
    (hconf : tree.conflicts = [])
    (htgt : target.is_open = true)
    (hns1 : tx1.repo_shared = false) :
    tx.check_out obs st target =
      some (st1,
            { tx1 with repo := { tx1.repo with
                view := tx1.repo.view.set_checkout target.id } },
            target) := by
  rw [check_out_spine hcur hopen hprune htree, materialize_result_of_nil st1 hconf]
  simp only [select_open_commit_same htgt (get_tree_id htree),
    finish_check_out_eq target hns1]

theorem get_commit_skip {st : StoreWrapper} {d : CommitData} {n : CommitId}
    (h : st.next_commit_id ≠ n) :
    (st.write_commit d).1.get_commit n = st.get_commit n := by
  have hb : (st.next_commit_id == n) = false := by
    simp [h]
  simp [StoreWrapper.write_commit, StoreWrapper.get_commit, List.find?_cons, hb]

theorem materialize_get_commit (st1 : StoreWrapper) (tree : Tree) (n : CommitId) :
    (st1.materialize_result tree).1.get_commit n = st1.get_commit n := by
  unfold StoreWrapper.get_commit
  rw [(materialize_result_store st1 tree).1]

theorem check_out_same_eq {tx : Transaction} {obs : EvolutionFn} {st : StoreWrapper}
    {target cc : Commit} {st1 : StoreWrapper} {tx1 : Transaction} {tree : Tree}
    (hcur : st.get_commit tx.repo.view.checkout = some cc)
    (hopen : cc.is_open = true)
    (hprune : tx.prune_current obs st cc = some (st1, tx1))
    (htree : st1.get_tree target.tree_id = some tree)
    (htgt : target.is_open = true)
    (htid : (st1.materialize_result tree).2 = target.tree_id)
    (hns1 : tx1.repo_shared = false) :
    tx.check_out obs st target =
      some ((st1.materialize_result tree).1,
            { tx1 with repo := { tx1.repo with
                view := tx1.repo.view.set_checkout target.id } },
            target) := by
  rw [check_out_spine hcur hopen hprune htree]
  simp only [select_open_commit_same htgt htid, finish_check_out_eq target hns1]

theorem check_out_closed_eq {tx : Transaction} {obs : EvolutionFn} {st : StoreWrapper}
    {target cc : Commit} {st1 : StoreWrapper} {tx1 : Transaction} {tree : Tree}
    {ev1 : MutableEvolution}
    (hcur : st.get_commit tx.repo.view.checkout = some cc)
    (hopen : cc.is_open = true)
    (hprune : tx.prune_current obs st cc = some (st1, tx1))
    (htree : st1.get_tree target.tree_id = some tree)
    (hclosed : target.is_open = false)
    (hns1 : tx1.repo_shared = false)
    (hev1 : tx1.repo.evolution = some ev1) :
    tx.check_out obs st target =
      some (((st1.materialize_result tree).1.write_commit
              (CommitBuilder.for_open_commit target.id (st1.materialize_result tree).2)).1,
            { tx1 with repo := { view := (tx1.repo.view.add_head ((st1.materialize_result tree).1.write_commit (CommitBuilder.for_open_commit target.id (st1.materialize_result tree).2)).2).set_checkout ((st1.materialize_result tree).1.write_commit (CommitBuilder.for_open_commit target.id (st1.materialize_result tree).2)).2.id, evolution := some ev1.invalidate } },
            ((st1.materialize_result tree).1.write_commit
              (CommitBuilder.for_open_commit target.id (st1.materialize_result tree).2)).2) := by
  rw [check_out_spine hcur hopen hprune htree,
    select_open_commit_closed hns1 hev1 hclosed]
  simp only [Transaction.finish_check_out, Transaction.get_mut, hns1, Bool.false_eq_true,
    if_false]

theorem check_out_diff_eq {tx : Transaction} {obs : EvolutionFn} {st : StoreWrapper}
    {target cc : Commit} {st1 : StoreWrapper} {tx1 : Transaction} {tree : Tree}
    {ev1 : MutableEvolution}
    (hcur : st.get_commit tx.repo.view.checkout = some cc)
    (hopen : cc.is_open = true)
    (hprune : tx.prune_current obs st cc = some (st1, tx1))
    (htree : st1.get_tree target.tree_id = some tree)
    (htgt : target.is_open = true)
    (htid : (st1.materialize_result tree).2 ≠ target.tree_id)
    (hns1 : tx1.repo_shared = false)
    (hev1 : tx1.repo.evolution = some ev1) :
    tx.check_out obs st target =
      some (((st1.materialize_result tree).1.write_commit
              ((CommitBuilder.for_rewrite_from target).set_tree (st1.materialize_result tree).2)).1,
            { tx1 with repo := { view := (tx1.repo.view.add_head ((st1.materialize_result tree).1.write_commit ((CommitBuilder.for_rewrite_from target).set_tree (st1.materialize_result tree).2)).2).set_checkout ((st1.materialize_result tree).1.write_commit ((CommitBuilder.for_rewrite_from target).set_tree (st1.materialize_result tree).2)).2.id, evolution := some ev1.invalidate } },
            ((st1.materialize_result tree).1.write_commit
              ((CommitBuilder.for_rewrite_from target).set_tree (st1.materialize_result tree).2)).2) := by
  rw [check_out_spine hcur hopen hprune htree,
    select_open_commit_diff hns1 hev1 htgt htid]
  simp only [Transaction.finish_check_out, Transaction.get_mut, hns1, Bool.false_eq_true,
    if_false]

/-- C7: checking out an open target commit whose tree has zero unresolved
conflicts (so conflict materialization leaves the tree id unchanged) returns the
target commit itself, unchanged, as the new checkout; no new commit object is
created for the target — the store's commit list grows only by the possible
empty-checkout pruning of the commit being left, and no tree is written. -/
theorem claim_C7 (tx : Transaction) (obs : EvolutionFn) (st : StoreWrapper)
    (target cc : Commit) (tree : Tree) (b : Bool) (ev : MutableEvolution)
    (hns : tx.repo_shared = false)
    (hev : tx.repo.evolution = some ev)
    (hcur : st.get_commit tx.repo.view.checkout = some cc)
    (hopen : cc.is_open = true)
    (hprune : tx.should_prune obs st cc = some b)
    (htgt : target.is_open = true)
    (htree : st.get_tree target.tree_id = some tree)
    (hconf : tree.conflicts = []) :
    ∃ st4 tx3, tx.check_out obs st target = some (st4, tx3, target) ∧
      tx3.repo.view.checkout = target.id ∧
      st4.commits.length = st.commits.length + (if b then 1 else 0) ∧
      st4.trees = st.trees := by
  cases b with
  | false =>
    have hpc := prune_current_of_false hprune
    exact ⟨_, _, check_out_reuse hcur hopen hpc htree hconf htgt hns, rfl, by simp, rfl⟩
  | true =>
    have hpc := prune_current_of_true hns hev hprune
    refine ⟨_, _, check_out_reuse hcur hopen hpc htree hconf htgt hns, rfl, ?_, rfl⟩
    simp [StoreWrapper.write_commit]

/-- C6: checking out a closed target commit always creates a brand-new open
commit (one not present in the store before the call) whose sole parent is the
closed commit's id and whose tree is the materialized tree; the closed commit is
never reused as the checkout — the new commit's id, distinct from the target's,
becomes the view's checkout. -/
theorem claim_C6 (tx : Transaction) (obs : EvolutionFn) (st : StoreWrapper)
    (target cc : Commit) (tree : Tree) (b : Bool) (ev : MutableEvolution)
    (hns : tx.repo_shared = false)
    (hev : tx.repo.evolution = some ev)
    (hcur : st.get_commit tx.repo.view.checkout = some cc)
    (hopen : cc.is_open = true)
    (hprune : tx.should_prune obs st cc = some b)
    (hclosed : target.is_open = false)
    (htgt : st.get_commit target.id = some target)
    (htree : st.get_tree target.tree_id = some tree)
    (hwf : st.wf) :
    ∃ st4 tx3 oc, tx.check_out obs st target = some (st4, tx3, oc) ∧
      oc.is_open = true ∧
      oc.parents = [target.id] ∧
      oc.tree_id = (if tree.conflicts.isEmpty then target.tree_id else st.next_tree_id) ∧
      st.get_commit oc.id = none ∧
      oc.id ≠ target.id ∧
      tx3.repo.view.checkout = oc.id ∧
      st4.get_commit oc.id = some oc := by
  cases b with
  | false =>
    have hpc := prune_current_of_false hprune
    have hco := check_out_closed_eq hcur hopen hpc htree hclosed hns hev
    have hnone : st.get_commit ((st.materialize_result tree).1.write_commit
        (CommitBuilder.for_open_commit target.id (st.materialize_result tree).2)).2.id = none := by
      have hid : ((st.materialize_result tree).1.write_commit
          (CommitBuilder.for_open_commit target.id (st.materialize_result tree).2)).2.id
          = st.next_commit_id := (materialize_result_store st tree).2
      rw [hid]
      exact get_commit_none_of_le hwf (Nat.le_refl _)
    refine ⟨_, _, _, hco, rfl, rfl, ?_, hnone, ?_, rfl, ?_⟩
    · have h := materialize_result_tid st tree
      rw [get_tree_id htree] at h
      exact h
    · intro heq
      rw [heq, htgt] at hnone
      exact Option.noConfusion hnone
    · exact get_commit_after_write (st.materialize_result tree).1
        (CommitBuilder.for_open_commit target.id (st.materialize_result tree).2)
  | true =>
    have hpc := prune_current_of_true hns hev hprune
    have hco := check_out_closed_eq hcur hopen hpc htree hclosed hns rfl
    have hnone : st.get_commit ((((st.write_commit
          ((CommitBuilder.for_rewrite_from cc).set_pruned true)).1).materialize_result
            tree).1.write_commit
        (CommitBuilder.for_open_commit target.id (((st.write_commit
          ((CommitBuilder.for_rewrite_from cc).set_pruned true)).1).materialize_result
            tree).2)).2.id = none := by
      have hid : ((((st.write_commit
            ((CommitBuilder.for_rewrite_from cc).set_pruned true)).1).materialize_result
              tree).1.write_commit
          (CommitBuilder.for_open_commit target.id (((st.write_commit
            ((CommitBuilder.for_rewrite_from cc).set_pruned true)).1).materialize_result
              tree).2)).2.id
          = ((st.write_commit
            ((CommitBuilder.for_rewrite_from cc).set_pruned true)).1).next_commit_id :=
        (materialize_result_store
          ((st.write_commit ((CommitBuilder.for_rewrite_from cc).set_pruned true)).1) tree).2
      rw [hid]
      exact get_commit_none_of_le hwf (Nat.le_succ _)
    refine ⟨_, _, _, hco, rfl, rfl, ?_, hnone, ?_, rfl, ?_⟩
    · have h := materialize_result_tid
        ((st.write_commit ((CommitBuilder.for_rewrite_from cc).set_pruned true)).1) tree
      rw [get_tree_id htree] at h
      exact h
    · intro heq
      rw [heq, htgt] at hnone
      exact Option.noConfusion hnone
    · exact get_commit_after_write
        (((st.write_commit ((CommitBuilder.for_rewrite_from cc).set_pruned true)).1).materialize_result tree).1
        (CommitBuilder.for_open_commit target.id
          (((st.write_commit ((CommitBuilder.for_rewrite_from cc).set_pruned true)).1).materialize_result tree).2)

/-- C5: when the current checkout commit is open, empty, not pruned and not
obsolete under the evolution index, `check_out` writes a rewrite successor of it
with `pruned = true` into the store, records it in the transaction's view as a
head via the commit-builder path, and the checkout transition still succeeds. -/
theorem claim_C5 (tx : Transaction) (obs : EvolutionFn) (st : StoreWrapper)
    (target cc : Commit) (tree : Tree) (ev : MutableEvolution)
    (hns : tx.repo_shared = false)
    (hev : tx.repo.evolution = some ev)
    (hcur : st.get_commit tx.repo.view.checkout = some cc)
    (hopen : cc.is_open = true)
    (hempty : cc.is_empty st = true)
    (hnp : cc.is_pruned = false)
    (hobs : ev.is_obsolete obs tx.repo.view cc.id = false)
    (htree : st.get_tree target.tree_id = some tree) :
    ∃ st4 tx3 oc, tx.check_out obs st target = some (st4, tx3, oc) ∧
      st4.get_commit st.next_commit_id = some
        { id := st.next_commit_id, parents := cc.parents, predecessors := [cc.id],
          tree_id := cc.tree_id, is_open := cc.is_open, is_pruned := true } ∧
      st.next_commit_id ∈ tx3.repo.view.heads := by
  have hsp := should_prune_eq_true hev hempty hnp hobs
  have hpc := prune_current_of_true hns hev hsp
  have hne : ((((st.write_commit
        ((CommitBuilder.for_rewrite_from cc).set_pruned true)).1).materialize_result
          tree).1).next_commit_id ≠ st.next_commit_id := by
    rw [(materialize_result_store
      ((st.write_commit ((CommitBuilder.for_rewrite_from cc).set_pruned true)).1) tree).2]
    exact Nat.succ_ne_self _
  by_cases htgt : target.is_open = true
  · by_cases htid : ((((st.write_commit
        ((CommitBuilder.for_rewrite_from cc).set_pruned true)).1).materialize_result
          tree)).2 = target.tree_id
    · have hco := check_out_same_eq hcur hopen hpc htree htgt htid hns
      refine ⟨_, _, _, hco, ?_, ?_⟩
      · rw [materialize_get_commit]
        exact get_commit_after_write st ((CommitBuilder.for_rewrite_from cc).set_pruned true)
      · exact add_head_mem_self tx.repo.view _
    · have hco := check_out_diff_eq hcur hopen hpc htree htgt htid hns rfl
      refine ⟨_, _, _, hco, ?_, ?_⟩
      · rw [get_commit_skip hne, materialize_get_commit]
        exact get_commit_after_write st ((CommitBuilder.for_rewrite_from cc).set_pruned true)
      · exact add_head_mem_mono (add_head_mem_self tx.repo.view _) _
  · simp only [Bool.not_eq_true] at htgt
    have hco := check_out_closed_eq hcur hopen hpc htree htgt hns rfl
    refine ⟨_, _, _, hco, ?_, ?_⟩
    · rw [get_commit_skip hne, materialize_get_commit]
      exact get_commit_after_write st ((CommitBuilder.for_rewrite_from cc).set_pruned true)
    · exact add_head_mem_mono (add_head_mem_self tx.repo.view _) _

/-- Witness for C7: checking out the open conflict-free fixture commit returns it
unchanged. -/
theorem claim_C7_witness :
    ∃ st4 tx3, fixTx.check_out fixObs fixStore fixC0 = some (st4, tx3, fixC0) ∧
      tx3.repo.view.checkout = fixC0.id ∧
      st4.commits.length = fixStore.commits.length + (if false then 1 else 0) ∧
      st4.trees = fixStore.trees :=
  claim_C7 fixTx fixObs fixStore fixC0 fixC0 fixT0 false { cached_view := some fixView }
    rfl rfl rfl rfl rfl rfl rfl rfl

/-- Witness for C6: checking out the closed fixture commit yields a fresh open
commit on top of it. -/
theorem claim_C6_witness :
    ∃ st4 tx3 oc, fixTx.check_out fixObs fixStoreWithClosed fixC1Closed =
        some (st4, tx3, oc) ∧
      oc.is_open = true ∧
      oc.parents = [fixC1Closed.id] ∧
      oc.tree_id = (if fixT0.conflicts.isEmpty then fixC1Closed.tree_id
        else fixStoreWithClosed.next_tree_id) ∧
      fixStoreWithClosed.get_commit oc.id = none ∧
      oc.id ≠ fixC1Closed.id ∧
      tx3.repo.view.checkout = oc.id ∧
      st4.get_commit oc.id = some oc :=
  claim_C6 fixTx fixObs fixStoreWithClosed fixC1Closed fixC0 fixT0 false
    { cached_view := some fixView } rfl rfl rfl rfl rfl rfl rfl rfl (by decide)

/-- Witness for C5: leaving the empty, unpruned, non-obsolete fixture checkout
prunes it. -/
theorem claim_C5_witness :
    ∃ st4 tx3 oc, fixTx.check_out fixObsNever fixStore fixC0 = some (st4, tx3, oc) ∧
      st4.get_commit fixStore.next_commit_id = some
        { id := fixStore.next_commit_id, parents := fixC0.parents,
          predecessors := [fixC0.id], tree_id := fixC0.tree_id,
          is_open := fixC0.is_open, is_pruned := true } ∧
      fixStore.next_commit_id ∈ tx3.repo.view.heads :=
  claim_C5 fixTx fixObsNever fixStore fixC0 fixC0 fixT0 { cached_view := some fixView }
    rfl rfl rfl rfl rfl rfl rfl rfl

end JJ
